import Mathlib

/-!
Verification development for the tsffs snapshot-fuzzing harness sources:
the host-side iteration driver `simple-example/testcode.c` and the guest
UEFI sample `tests/rsrc/x86_64-uefi-smi/src/HelloWorld.c`, together with
the SharedChannel protocol those files exercise.

A shared-memory region is embedded as a total function from byte offsets
to byte values.  The first `sizeof(size_t)` bytes hold a little-endian
length field; the payload follows.
-/

/-- A shared-memory region: byte value at each offset. -/
abbrev Region := Nat → Nat

/-- Header size: `sizeof(size_t)` on the x86-64 host, 8 bytes. -/
def headerSize : Nat := 8

/-- Capacity of the region: `confuse_create_dio_shared_mem(16*1024*1024)`
in `testcode.c`. -/
def capacity : Nat := 16 * 1024 * 1024

/-- Decode the little-endian length field from the first `headerSize`
bytes of a region. -/
def loadLen (r : Region) : Nat :=
  ((List.range headerSize).map (fun i => r i * 256 ^ i)).sum

/-- Store `n` little-endian into the first `headerSize` bytes, as the
driver's `memcpy(shm_array, &len, sizeof(size_t))` does. -/
def storeLen (n : Nat) (r : Region) : Region :=
  fun i => if i < headerSize then n / 256 ^ i % 256 else r i

/-- Copy the payload bytes `b` to offsets `headerSize ..
headerSize + len b - 1`, leaving all other bytes of the region alone. -/
def storePayload (b : List Nat) (r : Region) : Region :=
  fun i =>
    if headerSize ≤ i ∧ i < headerSize + b.length then b.getD (i - headerSize) 0
    else r i

/-- Error taxonomy of the SharedChannel operations. -/
inductive ChannelError
  | capacityExceeded
  | protocolFault
  deriving DecidableEq

/-- Result of a SharedChannel write: the region afterwards and the error,
if any. -/
structure WriteOut where
  region : Region
  error : Option ChannelError

/-- Modelled from the spec: the SharedChannel `write` operation (its
implementation lives in the `confuse_dio` library, which is not among the
sources; `testcode.c` is its caller).  Per the contract, `write(payload)`
fails with `CapacityExceeded` when `len(payload) > capacity - header_size`
and then leaves the region untouched; on success it writes the length
header and the payload and leaves bytes beyond `header_size + len(payload)`
untouched. -/
def SharedChannel.write (b : List Nat) (r : Region) : WriteOut :=
  if capacity - headerSize < b.length then
    { region := r, error := some ChannelError.capacityExceeded }
  else
    { region := storeLen b.length (storePayload b r), error := none }

/-- Modelled from the spec: the SharedChannel `read` operation (also from
the `confuse_dio` library, not among the sources).  It reads the header,
fails with `ProtocolFault` when the header exceeds the capacity, and
otherwise returns exactly that many payload bytes. -/
def SharedChannel.read (r : Region) : Option (List Nat) :=
  if capacity - headerSize < loadLen r then none
  else some ((List.range (loadLen r)).map (fun i => r (headerSize + i)))

/-- The declared-length payload of a region: the `loadLen r` bytes that
follow the header. -/
def readPayload (r : Region) : List Nat :=
  (List.range (loadLen r)).map (fun i => r (headerSize + i))

/-- Little-endian digit reassembly: summing the first `k` base-256 digits
of `n`, weighted, gives `n % 256 ^ k`. -/
lemma sum_range_digits (n : Nat) :
    ∀ k, ((List.range k).map (fun i => n / 256 ^ i % 256 * 256 ^ i)).sum = n % 256 ^ k := by
  intro k
  induction k with
  | zero => simp [Nat.mod_one]
  | succ k ih =>
      rw [List.range_succ, List.map_append, List.sum_append, ih]
      simp only [List.map_cons, List.map_nil, List.sum_cons, List.sum_nil, Nat.add_zero]
      rw [pow_succ, Nat.mod_mul]
      ring

/-- Reading the length field back after `storeLen` returns the stored
value modulo `2 ^ 64`. -/
lemma loadLen_storeLen (n : Nat) (r : Region) :
    loadLen (storeLen n r) = n % 256 ^ headerSize := by
  unfold loadLen
  rw [List.map_congr_left (g := fun i => n / 256 ^ i % 256 * 256 ^ i)]
  · exact sum_range_digits n headerSize
  · intro i hi
    rw [List.mem_range] at hi
    simp [storeLen, hi]

lemma loadLen_storeLen_small (n : Nat) (r : Region) (h : n < 256 ^ headerSize) :
    loadLen (storeLen n r) = n := by
  rw [loadLen_storeLen, Nat.mod_eq_of_lt h]

/-- Mapping `getD` over `range (len b)` reproduces `b`. -/
lemma map_getD_range (b : List Nat) :
    (List.range b.length).map (fun i => b.getD i 0) = b := by
  apply List.ext_getElem
  · simp
  · intro i h1 h2
    rw [List.getElem_map, List.getElem_range]
    exact List.getD_eq_getElem b 0 h2

lemma capacity_lt_pow : capacity - headerSize < 256 ^ headerSize := by
  decide

/-- C1: for every payload `b` with `len b ≤ capacity - header_size`, the
SharedChannel write of `b` (length into the first `sizeof(size_t)` bytes,
payload at offset `sizeof(size_t)`) succeeds, and a subsequent read
returns exactly the bytes `b`. -/
theorem write_read_roundtrip (b : List Nat) (r : Region)
    (h : b.length ≤ capacity - headerSize) :
    (SharedChannel.write b r).error = none ∧
      SharedChannel.read (SharedChannel.write b r).region = some b := by
  have hnotlt : ¬ capacity - headerSize < b.length := Nat.not_lt.mpr h
  have hsmall : b.length < 256 ^ headerSize :=
    Nat.lt_of_le_of_lt h capacity_lt_pow
  have hload :
      loadLen (SharedChannel.write b r).region = b.length := by
    simp only [SharedChannel.write, if_neg hnotlt]
    exact loadLen_storeLen_small _ _ hsmall
  refine ⟨by simp [SharedChannel.write, if_neg hnotlt], ?_⟩
  unfold SharedChannel.read
  rw [hload, if_neg hnotlt]
  congr 1
  have hpayload : ∀ i ∈ List.range b.length,
      (SharedChannel.write b r).region (headerSize + i) = b.getD i 0 := by
    intro i hi
    rw [List.mem_range] at hi
    simp only [SharedChannel.write, if_neg hnotlt]
    have h1 : ¬ headerSize + i < headerSize := by omega
    have h2 : headerSize ≤ headerSize + i ∧ headerSize + i < headerSize + b.length := by
      omega
    simp [storeLen, storePayload, h1, h2]
  rw [List.map_congr_left hpayload]
  exact map_getD_range b

/-- Witness for C1 at a concrete payload and region. -/
theorem write_read_roundtrip_witness :
    ([1, 2, 3] : List Nat).length ≤ capacity - headerSize ∧
      ((SharedChannel.write [1, 2, 3] (fun _ => 0)).error = none ∧
        SharedChannel.read (SharedChannel.write [1, 2, 3] (fun _ => 0)).region =
          some [1, 2, 3]) :=
  ⟨by decide, write_read_roundtrip [1, 2, 3] (fun _ => 0) (by decide)⟩

/-- C5: an oversized payload is rejected with `CapacityExceeded`, and the
whole region — in particular the length header — is left unchanged: no
partial write occurs. -/
theorem write_capacity_exceeded (b : List Nat) (r : Region)
    (h : capacity - headerSize < b.length) :
    (SharedChannel.write b r).error = some ChannelError.capacityExceeded ∧
      (SharedChannel.write b r).region = r ∧
      loadLen (SharedChannel.write b r).region = loadLen r := by
  simp [SharedChannel.write, if_pos h]

/-- Witness for C5 at a concrete oversized payload. -/
theorem write_capacity_exceeded_witness :
    capacity - headerSize < (List.replicate (capacity - headerSize + 1) 0).length ∧
      ((SharedChannel.write (List.replicate (capacity - headerSize + 1) 0)
          (fun _ => 9)).error = some ChannelError.capacityExceeded ∧
        (SharedChannel.write (List.replicate (capacity - headerSize + 1) 0)
          (fun _ => 9)).region = (fun _ => 9) ∧
        loadLen (SharedChannel.write (List.replicate (capacity - headerSize + 1) 0)
          (fun _ => 9)).region = loadLen (fun _ => 9)) :=
  ⟨by simp, write_capacity_exceeded _ (fun _ => 9) (by simp)⟩

/-- C7: a successful SharedChannel write of payload `b` modifies only the
first `header_size + len b` bytes: every byte at offset at least
`header_size + len b` keeps the value it had before the write. -/
theorem write_frame (b : List Nat) (r : Region)
    (hlen : b.length ≤ capacity - headerSize)
    (i : Nat) (hi : headerSize + b.length ≤ i) :
    (SharedChannel.write b r).region i = r i := by
  have hnotlt : ¬ capacity - headerSize < b.length := Nat.not_lt.mpr hlen
  have h1 : ¬ i < headerSize := by omega
  have h2 : ¬ (headerSize ≤ i ∧ i < headerSize + b.length) := by omega
  simp [SharedChannel.write, if_neg hnotlt, storeLen, storePayload, h1, h2]

/-- Witness for C7 at a concrete payload, region and offset. -/
theorem write_frame_witness :
    (([5] : List Nat).length ≤ capacity - headerSize ∧
        headerSize + ([5] : List Nat).length ≤ 9) ∧
      (SharedChannel.write [5] (fun j => j + 1)).region 9 = (fun j => j + 1) 9 :=
  ⟨⟨by decide, by decide⟩, write_frame [5] (fun j => j + 1) (by decide) 9 (by decide)⟩

/-- ASCII codes of the charset of `rand_string` in `testcode.c`: the 26
lowercase letters, the 26 uppercase letters, the 10 digits, then comma,
dot, hyphen, hash, apostrophe, question mark, exclamation mark. -/
def charset : List Nat :=
  [97, 98, 99, 100, 101, 102, 103, 104, 105, 106, 107, 108, 109, 110,
   111, 112, 113, 114, 115, 116, 117, 118, 119, 120, 121, 122,
   65, 66, 67, 68, 69, 70, 71, 72, 73, 74, 75, 76, 77, 78,
   79, 80, 81, 82, 83, 84, 85, 86, 87, 88, 89, 90,
   48, 49, 50, 51, 52, 53, 54, 55, 56, 57,
   44, 46, 45, 35, 39, 63, 33]

/-- The `rand_string(str, size)` function of `testcode.c`.  The stream of
`rand()` results is passed in as `rands` (call `n` consumes `rands n`).
For `size > 0` the loop writes `charset[rand() % (sizeof charset - 1)]`
into `str[0] .. str[size-2]` and a terminating 0 into `str[size-1]`; for
`size = 0` the buffer is returned unmodified. -/
def rand_string (rands : Nat → Nat) (str : Nat → Nat) (size : Nat) : Nat → Nat :=
  if size = 0 then str
  else
    let body := (List.range (size - 1)).foldl
      (fun s n => Function.update s n (charset.getD (rands n % charset.length) 0)) str
    Function.update body (size - 1) 0

/-- Evaluating a left fold of pointwise updates at indices `0 .. k-1`. -/
lemma foldl_update_eval (str : Nat → Nat) (f : Nat → Nat) :
    ∀ k, (List.range k).foldl (fun s n => Function.update s n (f n)) str =
      fun m => if m < k then f m else str m := by
  intro k
  induction k with
  | zero => funext m; simp
  | succ k ih =>
      rw [List.range_succ, List.foldl_append, ih]
      funext m
      simp only [List.foldl_cons, List.foldl_nil, Function.update_apply]
      by_cases hm : m = k
      · simp [hm]
      · simp only [if_neg hm]
        by_cases hk : m < k
        · rw [if_pos hk, if_pos (by omega)]
        · rw [if_neg hk, if_neg (by omega)]

/-- Pointwise value of `rand_string` for positive `size`. -/
lemma rand_string_apply (rands str : Nat → Nat) (size : Nat) (hs : 0 < size) (m : Nat) :
    rand_string rands str size m =
      if m = size - 1 then 0
      else if m < size - 1 then charset.getD (rands m % charset.length) 0
      else str m := by
  unfold rand_string
  rw [if_neg (by omega), foldl_update_eval, Function.update_apply]

/-- C9: for `size > 0`, `rand_string` fills `str[0..size-2]` with
characters of the fixed 69-character charset, writes a 0 terminator into
`str[size-1]`, and leaves every byte at offset `size` and beyond
unmodified; for `size = 0` the buffer is returned completely unmodified. -/
theorem rand_string_spec (rands str : Nat → Nat) (size : Nat) :
    (0 < size →
        (∀ n, n < size - 1 → rand_string rands str size n ∈ charset) ∧
        rand_string rands str size (size - 1) = 0 ∧
        (∀ n, size ≤ n → rand_string rands str size n = str n)) ∧
      (size = 0 → rand_string rands str size = str) ∧
      charset.length = 69 := by
  refine ⟨fun hs => ⟨?_, ?_, ?_⟩, fun h0 => ?_, by decide⟩
  · intro n hn
    rw [rand_string_apply rands str size hs n, if_neg (by omega), if_pos hn]
    have hlt : rands n % charset.length < charset.length :=
      Nat.mod_lt _ (by decide)
    rw [List.getD_eq_getElem charset 0 hlt]
    exact List.getElem_mem hlt
  · rw [rand_string_apply rands str size hs (size - 1), if_pos rfl]
  · intro n hn
    rw [rand_string_apply rands str size hs n, if_neg (by omega), if_neg (by omega)]
  · simp [rand_string, h0]

/-- Witness for C9 at a concrete random stream, buffer and size. -/
theorem rand_string_spec_witness :
    rand_string (fun n => n) (fun n => 100 + n) 4 0 ∈ charset ∧
      rand_string (fun n => n) (fun n => 100 + n) 4 3 = 0 ∧
      rand_string (fun n => n) (fun n => 100 + n) 4 7 = 100 + 7 :=
  ⟨((rand_string_spec (fun n => n) (fun n => 100 + n) 4).1 (by decide)).1 0 (by decide),
   ((rand_string_spec (fun n => n) (fun n => 100 + n) 4).1 (by decide)).2.1,
   ((rand_string_spec (fun n => n) (fun n => 100 + n) 4).1 (by decide)).2.2 7 (by decide)⟩

/-- The payload length the driver writes in every iteration:
`size_t len = 20` in `testcode.c`. -/
def driverLen : Nat := 20

/-- The driver's input injection, iteration body lines
`rand_string(shm_array+sizeof(size_t), len)` followed by
`memcpy(shm_array, &len, sizeof(size_t))`: fill the payload area with a
random string of `driverLen` bytes, then store `driverLen` into the
little-endian length header. -/
def driverInject (rands : Nat → Nat) (r : Region) : Region :=
  storeLen driverLen
    (fun j =>
      if headerSize ≤ j then
        rand_string rands (fun i => r (headerSize + i)) driverLen (j - headerSize)
      else r j)

/-- C4: every driver write stores length 20 into the length field, and 20
is at most `capacity - header_size` for the driver's region of capacity
`16*1024*1024`; hence the header invariant holds whenever the driver has
last written the header. -/
theorem driver_header_invariant (rands : Nat → Nat) (r : Region) :
    loadLen (driverInject rands r) = driverLen ∧
      driverLen ≤ capacity - headerSize ∧
      capacity = 16 * 1024 * 1024 := by
  refine ⟨?_, by decide, rfl⟩
  unfold driverInject
  exact loadLen_storeLen_small _ _ (by decide)

/-- The sentinel marker bytes, the string literal in
`strcmp(shm_array+sizeof(size_t), "Fail")`: codes of F, a, i, l. -/
def failLit : List Nat := [70, 97, 105, 108]

/-- Equality test of `strcmp(p, s) == 0` against a literal `s` that
contains no 0 byte: the bytes of `p` match `s` position by position and
the byte of `p` right after them is the 0 terminator. -/
def strcmpEqLit (p : Nat → Nat) (s : List Nat) : Bool :=
  ((List.range s.length).all fun i => p i == s.getD i 0) && (p s.length == 0)

/-- The driver's classification of one iteration, line
`if (strcmp(shm_array+sizeof(size_t), "Fail") == 0) failcnt++;`: the
failure counter is incremented exactly when this returns `true`. -/
def driverSentinelFail (r : Region) : Bool :=
  strcmpEqLit (fun i => r (headerSize + i)) failLit

/-- A region whose declared length is 20 and whose payload starts with
the bytes F, a, i, l followed by a 0 byte and fifteen more 0 bytes. -/
def sentinelRegion : Region := fun i =>
  if i = 0 then 20
  else if i = 8 then 70
  else if i = 9 then 97
  else if i = 10 then 105
  else if i = 11 then 108
  else 0

/-- C2 fails on the code: on `sentinelRegion` the driver counts a
sentinel failure, yet the declared-length payload (20 bytes) is not the
4-byte sentinel — `strcmp` stops at the 0 terminator and ignores the
declared length. -/
theorem sentinel_strcmp_counterexample :
    ¬ (driverSentinelFail sentinelRegion = true ↔
        readPayload sentinelRegion = failLit) := by
  decide

/-- C2 amended: the driver increments its failure counter iff the bytes
at offsets `header_size .. header_size+3` are the sentinel bytes F, a, i,
l and the byte at offset `header_size+4` is the 0 terminator — a
`strcmp`-style comparison relying on the terminator, not on the declared
payload length. -/
theorem sentinel_strcmp_characterization (r : Region) :
    driverSentinelFail r = true ↔
      ((∀ i, i < failLit.length → r (headerSize + i) = failLit.getD i 0) ∧
        r (headerSize + failLit.length) = 0) := by
  simp [driverSentinelFail, strcmpEqLit, List.all_eq_true, List.mem_range]

/-- Event alphabet of one driver loop iteration in `testcode.c`. -/
inductive DriverEv
  | reset
  | inject
  | run
  | classify
  deriving DecidableEq

/-- The body of the driver loop, in source order: `confuse_reset`, the
input injection into the SharedChannel, `confuse_run`, then the output
read and classification. -/
def iterEvents : List DriverEv :=
  [DriverEv.reset, DriverEv.inject, DriverEv.run, DriverEv.classify]

/-- The event trace of `n` iterations of the driver loop. -/
def driverTrace : Nat → List DriverEv
  | 0 => []
  | n + 1 => driverTrace n ++ iterEvents

lemma driverTrace_length (n : Nat) : (driverTrace n).length = 4 * n := by
  induction n with
  | zero => rfl
  | succ n ih => simp [driverTrace, iterEvents, ih]; omega

/-- Position `p` of the `n`-iteration trace holds the event at position
`p % 4` of the loop body. -/
lemma driverTrace_getElem (n p : Nat) :
    (driverTrace n)[p]? = if p < 4 * n then iterEvents[p % 4]? else none := by
  induction n with
  | zero => simp [driverTrace]
  | succ n ih =>
      show (driverTrace n ++ iterEvents)[p]? = _
      by_cases hp : p < (driverTrace n).length
      · rw [List.getElem?_append_left hp, ih,
          if_pos (by rw [driverTrace_length] at hp; omega),
          if_pos (by rw [driverTrace_length] at hp; omega)]
      · rw [List.getElem?_append_right (by omega)]
        rw [driverTrace_length] at hp ⊢
        by_cases hp4 : p < 4 * n + 4
        · rw [if_pos (by omega)]
          congr 1
          omega
        · rw [if_neg (by omega)]
          apply List.getElem?_eq_none
          show 4 ≤ p - 4 * n
          omega

/-- C3: each iteration of the driver loop performs reset, injection, run,
classification in that order, and every injection event sits immediately
between a reset and the following run — it never occurs outside a
reset-to-run window. -/
theorem inject_between_reset_and_run (N p : Nat)
    (h : (driverTrace N)[p]? = some DriverEv.inject) :
    (∀ i, i < N →
        (driverTrace N)[4 * i]? = some DriverEv.reset ∧
        (driverTrace N)[4 * i + 1]? = some DriverEv.inject ∧
        (driverTrace N)[4 * i + 2]? = some DriverEv.run ∧
        (driverTrace N)[4 * i + 3]? = some DriverEv.classify) ∧
      0 < p ∧
      (driverTrace N)[p - 1]? = some DriverEv.reset ∧
      (driverTrace N)[p + 1]? = some DriverEv.run := by
  rw [driverTrace_getElem] at h
  by_cases hlt : p < 4 * N
  swap
  · rw [if_neg hlt] at h; exact absurd h (by simp)
  rw [if_pos hlt] at h
  have hmod : p % 4 = 0 ∨ p % 4 = 1 ∨ p % 4 = 2 ∨ p % 4 = 3 := by omega
  have hp1 : p % 4 = 1 := by
    rcases hmod with h0 | h1 | h2 | h3
    · rw [h0] at h; exact absurd h (by decide)
    · exact h1
    · rw [h2] at h; exact absurd h (by decide)
    · rw [h3] at h; exact absurd h (by decide)
  refine ⟨?_, by omega, ?_, ?_⟩
  · intro i hi
    refine ⟨?_, ?_, ?_, ?_⟩ <;>
      · rw [driverTrace_getElem, if_pos (by omega)]
        have hm : ∀ c : Nat, c < 4 → (4 * i + c) % 4 = c := fun c hc => by omega
        first
          | rw [show (4 * i) % 4 = 0 by omega]; rfl
          | rw [hm 1 (by omega)]; rfl
          | rw [hm 2 (by omega)]; rfl
          | rw [hm 3 (by omega)]; rfl
  · rw [driverTrace_getElem, if_pos (by omega), show (p - 1) % 4 = 0 by omega]
    rfl
  · rw [driverTrace_getElem, if_pos (by omega), show (p + 1) % 4 = 2 by omega]
    rfl

/-- Witness for C3 at the concrete trace of one iteration. -/
theorem inject_between_reset_and_run_witness :
    (driverTrace 1)[1]? = some DriverEv.inject ∧
      (0 < 1 ∧
        (driverTrace 1)[0]? = some DriverEv.reset ∧
        (driverTrace 1)[2]? = some DriverEv.run) :=
  ⟨by decide, (inject_between_reset_and_run 1 1 (by decide)).2⟩

/-- Observable result of the CLI driver process: its exit code and
whether the final aggregate line (total duration and failure count) was
printed. -/
structure MainResult where
  exitCode : Int
  printedSummary : Bool
  deriving DecidableEq

/-- The control flow of `main` in `testcode.c`: `exit(1)` when `argc` is
not 2, `exit(-1)` when `confuse_create_dio_shared_mem` returns NULL,
`exit(-1)` when `confuse_init` fails, and otherwise the loop runs, the
summary `printf` executes, and `main` returns 0.  Whether the two
external calls succeed is passed in as `shmOk` and `initOk`; neither
library is among the sources. -/
def Testcode.main (argc : Nat) (shmOk initOk : Bool) : MainResult :=
  if argc ≠ 2 then { exitCode := 1, printedSummary := false }
  else if shmOk = false then { exitCode := -1, printedSummary := false }
  else if initOk = false then { exitCode := -1, printedSummary := false }
  else { exitCode := 0, printedSummary := true }

/-- C8: the driver exits with code 0 exactly when the argument count is
right and both the shared-memory allocation and the init succeed — any
failure of those yields a nonzero exit code — and the aggregate duration
and failure count are printed exactly on the successful path. -/
theorem main_exit_code (argc : Nat) (shmOk initOk : Bool) :
    ((Testcode.main argc shmOk initOk).exitCode = 0 ↔
        (argc = 2 ∧ shmOk = true ∧ initOk = true)) ∧
      ((Testcode.main argc shmOk initOk).printedSummary = true ↔
        (Testcode.main argc shmOk initOk).exitCode = 0) := by
  by_cases h : argc = 2 <;> cases shmOk <;> cases initOk <;>
    simp [Testcode.main, h]

/-- Event alphabet of the guest sample `HelloWorldDxeInitialize` in
`HelloWorld.c`. -/
inductive GuestEv
  | setMem
  | harnessStart
  | copyMem
  | saveLockBox
  | harnessStop
  | freePages
  deriving DecidableEq

/-- EFI_SUCCESS status code. -/
def EFI_SUCCESS : Nat := 0

/-- EFI_OUT_OF_RESOURCES status code. -/
def EFI_OUT_OF_RESOURCES : Nat := 0x8000000000000009

/-- The guest input buffer size, `UINTN input_max_size = 64`. -/
def input_max_size : Nat := 64

/-- Observable result of one execution of `HelloWorldDxeInitialize`: the
returned status, the sequence of events it performed, and the contents of
the input buffer at the moment `HARNESS_START` is invoked, if it is. -/
structure GuestRun where
  status : Nat
  events : List GuestEv
  bufferAtStart : Option (Nat → Nat)

/-- `HelloWorldDxeInitialize` of `HelloWorld.c`, parameterized by the
outcome of `AllocatePages`: `none` models a NULL return, `some buf` a
fresh allocation with contents `buf`.  On NULL the function returns
`EFI_OUT_OF_RESOURCES` at once; otherwise it fills the 64-byte buffer
with `0x44` via `SetMem`, invokes `HARNESS_START`, copies the GUID,
calls `SaveLockBox`, invokes `HARNESS_STOP`, frees the pages and returns
`EFI_SUCCESS`. -/
def HelloWorldDxeInitialize (alloc : Option (Nat → Nat)) : GuestRun :=
  match alloc with
  | none =>
      { status := EFI_OUT_OF_RESOURCES, events := [], bufferAtStart := none }
  | some buf =>
      { status := EFI_SUCCESS,
        events := [GuestEv.setMem, GuestEv.harnessStart, GuestEv.copyMem,
                   GuestEv.saveLockBox, GuestEv.harnessStop, GuestEv.freePages],
        bufferAtStart := some (fun i => if i < input_max_size then 0x44 else buf i) }

/-- C6 fails on the code: in the execution where `AllocatePages` returns
NULL, `HARNESS_START` is invoked zero times, not exactly once. -/
theorem harness_pair_counterexample :
    ¬ ((HelloWorldDxeInitialize none).events.count GuestEv.harnessStart = 1) := by
  decide

/-- C6 amended: in every guest execution in which the page allocation
succeeds, `HARNESS_START` is invoked exactly once and `HARNESS_STOP` is
invoked exactly once, with the start strictly before the stop; if the
allocation fails, neither control point is invoked. -/
theorem harness_pair (buf : Nat → Nat) :
    (HelloWorldDxeInitialize (some buf)).events.count GuestEv.harnessStart = 1 ∧
      (HelloWorldDxeInitialize (some buf)).events.count GuestEv.harnessStop = 1 ∧
      (HelloWorldDxeInitialize (some buf)).events.indexOf GuestEv.harnessStart <
        (HelloWorldDxeInitialize (some buf)).events.indexOf GuestEv.harnessStop ∧
      (HelloWorldDxeInitialize none).events.count GuestEv.harnessStart = 0 ∧
      (HelloWorldDxeInitialize none).events.count GuestEv.harnessStop = 0 := by
  have h : (HelloWorldDxeInitialize (some buf)).events =
      [GuestEv.setMem, GuestEv.harnessStart, GuestEv.copyMem,
       GuestEv.saveLockBox, GuestEv.harnessStop, GuestEv.freePages] := rfl
  rw [h]
  exact ⟨by decide, by decide, by decide, by decide, by decide⟩

/-- C10: when `AllocatePages` returns NULL the function returns
`EFI_OUT_OF_RESOURCES` having performed no event at all — in particular
neither `HARNESS_START` nor `HARNESS_STOP` nor any buffer write — and
when the allocation succeeds, every byte of the 64-byte buffer reads
`0x44` at the moment `HARNESS_START` is invoked. -/
theorem alloc_failure_path (buf : Nat → Nat) (i : Nat)
    (hi : i < input_max_size) :
    (HelloWorldDxeInitialize none).status = EFI_OUT_OF_RESOURCES ∧
      (HelloWorldDxeInitialize none).events = [] ∧
      (HelloWorldDxeInitialize none).bufferAtStart = none ∧
      ((HelloWorldDxeInitialize (some buf)).bufferAtStart.getD (fun _ => 0)) i =
        0x44 := by
  refine ⟨rfl, rfl, rfl, ?_⟩
  simp [HelloWorldDxeInitialize, hi]

/-- Witness for C10 at a concrete allocation and offset. -/
theorem alloc_failure_path_witness :
    (3 < input_max_size) ∧
      ((HelloWorldDxeInitialize none).status = EFI_OUT_OF_RESOURCES ∧
        (HelloWorldDxeInitialize none).events = [] ∧
        (HelloWorldDxeInitialize none).bufferAtStart = none ∧
        ((HelloWorldDxeInitialize (some fun _ => 7)).bufferAtStart.getD
            (fun _ => 0)) 3 = 0x44) :=
  ⟨by decide, alloc_failure_path (fun _ => 7) 3 (by decide)⟩
